import Mathlib

/-!
Shallow embedding of `src/scripts/functions/vae.py` (the 2-layer Tybalt VAE
training script) and proofs about it.

Numeric tensors are modelled as lists of rationals.  Transcendental backend
functions (`K.exp`, the logarithm inside `binary_crossentropy`) are taken as
explicit function parameters `rexp`, `rlog : ℚ → ℚ`, so every definition stays
computable and the wiring of the computation graph is modelled exactly as the
script builds it.
-/

namespace VaeScript

/-- Elementwise ReLU, the `Activation('relu')` Keras layer applied to one
scalar activation. -/
def relu (x : ℚ) : ℚ := max 0 x

/-- `Activation('relu')` on a whole feature vector. -/
def reluV (v : List ℚ) : List ℚ := v.map relu

/-- Dot product of two feature vectors. -/
def dot (xs ys : List ℚ) : ℚ := (List.zipWith (· * ·) xs ys).sum

/-- A Keras `Dense` layer: one weight row and one bias entry per output unit,
plus the `kernel_initializer` string passed at construction. -/
structure DenseLayer where
  weights : List (List ℚ)
  bias : List ℚ
  kernel_initializer : String

/-- Applying a `Dense` layer to an input vector. -/
def denseApply (d : DenseLayer) (x : List ℚ) : List ℚ :=
  List.zipWith (fun row b => dot row x + b) d.weights d.bias

/-- A `BatchNormalization` layer in inference form: one learned affine-like
scalar transformation per feature (the per-feature normalisation
`gamma * (x - mean) / sqrt(var + eps) + shift`). -/
def bnApply (fs : List (ℚ → ℚ)) (x : List ℚ) : List ℚ :=
  List.zipWith (fun f v => f v) fs x

/-- Mean of all entries of a tensor, `K.mean`. -/
def kmean (xs : List ℚ) : ℚ := xs.sum / xs.length

/-! ## The shared warm-up cell `beta` (line 95) and the scheduler (lines 162-170) -/

/-- A Keras backend variable holding one scalar: the mutable cell created by
`beta = K.variable(0)`. -/
structure BetaCell where
  value : ℚ

/-- `K.get_value` on the cell: reads the current numeric contents. -/
def getValue (c : BetaCell) : ℚ := c.value

/-- `K.set_value` on the cell. -/
def setValue (_ : BetaCell) (v : ℚ) : BetaCell := ⟨v⟩

/-- `beta = K.variable(0)` — the cell as created at line 95. -/
def initialBeta : BetaCell := ⟨0⟩

/-- `WarmUpCallback.on_epoch_end`: if the current beta is `≤ 1`, add `kappa`
to it, otherwise leave it unchanged (lines 168-170). -/
def on_epoch_end (kappa : ℚ) (c : BetaCell) : BetaCell :=
  if getValue c ≤ 1 then setValue c (getValue c + kappa) else c

/-- Contents of the beta cell after `n` completed epochs: `fit` runs the
callback exactly once at the end of each epoch, starting from
`initialBeta`. -/
def betaAfterEpochs (kappa : ℚ) : ℕ → BetaCell
  | 0 => initialBeta
  | n + 1 => on_epoch_end kappa (betaAfterEpochs kappa n)

/-! ## Encoder (lines 208-222) -/

/-- Parameters of the three encoder stacks built at lines 208-222: each stack
is one `Dense` layer followed by one `BatchNormalization` layer (the ReLU
activation has no parameters). -/
structure EncoderParams where
  hidden_dense : DenseLayer
  hidden_bn : List (ℚ → ℚ)
  z_mean_dense : DenseLayer
  z_mean_bn : List (ℚ → ℚ)
  z_log_var_dense : DenseLayer
  z_log_var_bn : List (ℚ → ℚ)

/-- The script constructs every encoder `Dense` layer with
`kernel_initializer='glorot_uniform'` (lines 208, 216, 220); this constructor
reflects those construction calls, taking only the numeric parameters. -/
def mkEncoderParams (hw : List (List ℚ)) (hb : List ℚ) (hbn : List (ℚ → ℚ))
    (mw : List (List ℚ)) (mb : List ℚ) (mbn : List (ℚ → ℚ))
    (vw : List (List ℚ)) (vb : List ℚ) (vbn : List (ℚ → ℚ)) : EncoderParams :=
  { hidden_dense := ⟨hw, hb, "glorot_uniform"⟩
    hidden_bn := hbn
    z_mean_dense := ⟨mw, mb, "glorot_uniform"⟩
    z_mean_bn := mbn
    z_log_var_dense := ⟨vw, vb, "glorot_uniform"⟩
    z_log_var_bn := vbn }

/-- `hidden_encoded` (lines 208-210): input → Dense(intermediate_dim) →
BatchNormalization → ReLU. -/
def hidden_encoded (p : EncoderParams) (x : List ℚ) : List ℚ :=
  reluV (bnApply p.hidden_bn (denseApply p.hidden_dense x))

/-- `z_mean_encoded` (lines 216-218): the hidden representation → Dense(latent_dim)
→ BatchNormalization → ReLU. -/
def z_mean_encoded (p : EncoderParams) (x : List ℚ) : List ℚ :=
  reluV (bnApply p.z_mean_bn (denseApply p.z_mean_dense (hidden_encoded p x)))

/-- `z_log_var_encoded` (lines 220-222): the RAW input `rnaseq_input` →
Dense(latent_dim) → BatchNormalization → ReLU. -/
def z_log_var_encoded (p : EncoderParams) (x : List ℚ) : List ℚ :=
  reluV (bnApply p.z_log_var_bn (denseApply p.z_log_var_dense x))

/-! ## Sampler (lines 122-134) -/

/-- `sampling` (lines 122-134): given the encoded pair and the noise tensor
`epsilon` drawn by `K.random_normal` with the shape of `z_mean`, returns
`z = z_mean + exp(z_log_var / 2) * epsilon` elementwise.  The random draw
itself is external backend state, so the draw is an explicit argument: the
function keeps no state of its own. -/
def sampling (rexp : ℚ → ℚ) (z_mean z_log_var epsilon : List ℚ) : List ℚ :=
  List.zipWith (fun m p => m + rexp (p.1 / 2) * p.2) z_mean (z_log_var.zip epsilon)

/-! ## Decoder (lines 248-251) -/

/-- `sigmoid` activation used by the decoder output layer. -/
def sigmoid (rexp : ℚ → ℚ) (x : ℚ) : ℚ := 1 / (1 + rexp (-x))

/-- Parameters of `decoder_model = Sequential()` (lines 248-250): a
`Dense(intermediate_dim, activation='relu')` followed by a
`Dense(original_dim, activation='sigmoid')`. -/
structure DecoderParams where
  dense1 : DenseLayer
  dense2 : DenseLayer

/-- Applying `decoder_model` to a latent vector: first Dense with ReLU, then
Dense with sigmoid. -/
def decoder_model (rexp : ℚ → ℚ) (d : DecoderParams) (v : List ℚ) : List ℚ :=
  (denseApply d.dense2 (reluV (denseApply d.dense1 v))).map (sigmoid rexp)

/-! ## Loss (lines 146-151) -/

/-- Keras `metrics.binary_crossentropy` along the feature axis: the mean over
features of `-(x*log(xhat) + (1-x)*log(1-xhat))`, with the backend logarithm
abstract. -/
def binary_crossentropy (rlog : ℚ → ℚ) (x xhat : List ℚ) : ℚ :=
  kmean (List.zipWith (fun t q => -(t * rlog q + (1 - t) * rlog (1 - q))) x xhat)

/-- The per-sample KL term of `vae_loss` (lines 148-150):
`-0.5 * K.sum(1 + z_log_var - square(z_mean) - exp(z_log_var), axis=-1)`. -/
def kl_loss_row (rexp : ℚ → ℚ) (zm zlv : List ℚ) : ℚ :=
  -(1/2) * (List.zipWith (fun m v => 1 + v - m ^ 2 - rexp v) zm zlv).sum

/-- One training batch as seen by `CustomVariationalLayer.call`: per-sample
input rows, reconstructed rows, and the encoded `z_mean` / `z_log_var` rows
feeding the KL term. -/
structure Batch where
  x_input : List (List ℚ)
  x_decoded : List (List ℚ)
  z_mean_rows : List (List ℚ)
  z_log_var_rows : List (List ℚ)

/-- The body of `CustomVariationalLayer.vae_loss` (lines 146-151) with the KL
coefficient made explicit: `K.mean(reconstruction_loss + coeff * kl_loss)`
where `reconstruction_loss = original_dim * binary_crossentropy(x, x_decoded)`
per sample.  In the script `coeff` is `K.get_value(beta)`: a plain Python
NUMBER read from the cell at the moment `vae_loss` is traced. -/
def vae_loss_with_coeff (rexp rlog : ℚ → ℚ) (original_dim : ℕ) (coeff : ℚ)
    (b : Batch) : ℚ :=
  kmean (List.zipWith
    (fun xr zr =>
      (original_dim : ℚ) * binary_crossentropy rlog xr.1 xr.2
        + coeff * kl_loss_row rexp zr.1 zr.2)
    (b.x_input.zip b.x_decoded) (b.z_mean_rows.zip b.z_log_var_rows))

/-- `vae_loss` exactly as line 151 executes when the layer is traced: the
coefficient is `K.get_value(beta)` evaluated against the cell as it is AT
TRACE TIME. -/
def vae_loss (rexp rlog : ℚ → ℚ) (original_dim : ℕ) (betaAtTrace : BetaCell)
    (b : Batch) : ℚ :=
  vae_loss_with_coeff rexp rlog original_dim (getValue betaAtTrace) b

/-- The KL coefficient baked into the compiled graph.  `CustomVariationalLayer`
is applied at line 257 — during model construction, before `fit` runs — so the
cell still holds its initial contents from line 95 and `K.get_value(beta)`
returns that number.  The compiled loss keeps this constant forever. -/
def compiledKlCoeff : ℚ := getValue initialBeta

/-- Evaluating the compiled training loss during training: the training state
carries the beta cell (mutated by `WarmUpCallback`), but the compiled graph
contains only the numeric constant `compiledKlCoeff`, so the evaluation does
not read the cell. -/
def trainingLossEval (rexp rlog : ℚ → ℚ) (original_dim : ℕ) (_ : BetaCell)
    (b : Batch) : ℚ :=
  vae_loss_with_coeff rexp rlog original_dim compiledKlCoeff b

/-- Modelled from the spec: the loss §4.5 describes, in which the KL term is
weighted by the CURRENT contents of the shared warm-up cell each time the loss
is evaluated (so the scheduler's updates take effect). -/
def spec_loss (rexp rlog : ℚ → ℚ) (original_dim : ℕ) (cellNow : BetaCell)
    (b : Batch) : ℚ :=
  vae_loss_with_coeff rexp rlog original_dim (getValue cellNow) b

/-! ## Data splitter (lines 25, 177-180) -/

/-- `randomState = 123`, the module-level seed constant (line 25). -/
def randomState : ℕ := 123

/-- `test_set_percent = 0.1` (line 178). -/
def test_set_percent : ℚ := 1/10

/-- Python's built-in `round` (round half to even), which
`DataFrame.sample(frac=...)` uses to turn `frac * N` into a row count. -/
def pyRound (q : ℚ) : ℤ :=
  if q - Int.floor q < 1/2 then Int.floor q
  else if q - Int.floor q > 1/2 then Int.floor q + 1
  else if Int.floor q % 2 = 0 then Int.floor q else Int.floor q + 1

/-- `DataFrame.sample(frac, random_state)`: the seeded generator picks
`round(frac * N)` distinct row positions without replacement — `choice` is
that external generator, a pure function of the seed, the population size and
the requested count — and the sampled frame is those rows of `df`. -/
def pdSample (choice : ℕ → ℕ → ℕ → List ℕ) (seed : ℕ) (frac : ℚ)
    (df : List α) : List α :=
  (choice seed df.length (pyRound (frac * df.length)).toNat).filterMap
    (fun i => df[i]?)

/-- `DataFrame.drop(labels)`: keeps, in original order, the rows whose label
is not among the dropped ones. -/
def pdDrop [DecidableEq α] (df labels : List α) : List α :=
  df.filter (fun r => r ∉ labels)

/-- `rnaseq_test_df = rnaseq.sample(frac=test_set_percent, random_state=randomState)`
(line 179). -/
def rnaseq_test_df (choice : ℕ → ℕ → ℕ → List ℕ) (rnaseq : List α) : List α :=
  pdSample choice randomState test_set_percent rnaseq

/-- `rnaseq_train_df = rnaseq.drop(rnaseq_test_df.index)` (line 180). -/
def rnaseq_train_df [DecidableEq α] (choice : ℕ → ℕ → ℕ → List ℕ)
    (rnaseq : List α) : List α :=
  pdDrop rnaseq (rnaseq_test_df choice rnaseq)

/-- The nine arguments of `tybalt_2layer_model` (line 64). -/
structure HyperParams where
  learning_rate : ℚ
  batch_size : ℕ
  epochs : ℕ
  kappa : ℚ
  intermediate_dim : ℕ
  latent_dim : ℕ
  epsilon_std : ℚ
  base_dir : String
  analysis_name : String

/-- The train/test split as performed inside `tybalt_2layer_model`: the body
of lines 177-180 mentions only the module constants `randomState` and
`test_set_percent`, none of the function's nine arguments. -/
def tybalt_split [DecidableEq α] (choice : ℕ → ℕ → ℕ → List ℕ)
    (_hp : HyperParams) (rnaseq : List α) : List α × List α :=
  (rnaseq_train_df choice rnaseq, rnaseq_test_df choice rnaseq)

/-! ## Trained models, prediction and export (lines 248-329) -/

/-- The parameter state shared by everything built from the one graph: the
encoder layers and the single `decoder_model` instance (line 248), which is
applied both at line 251 (after the sampler, giving `rnaseq_reconstruct`) and
at line 323 (on the fresh standalone `decoder_input`). -/
structure BuiltModels where
  encoderParams : EncoderParams
  decoderParams : DecoderParams

/-- `rnaseq_reconstruct = decoder_model(z)` (line 251): the in-training
decoder path applied to a sampled latent vector. -/
def rnaseq_reconstruct (rexp : ℚ → ℚ) (m : BuiltModels) (z : List ℚ) : List ℚ :=
  decoder_model rexp m.decoderParams z

/-- `decoder = Model(decoder_input, decoder_model(decoder_input))`
(lines 322-324): the standalone decoder assembled for export, fed an arbitrary
`latent_dim`-sized vector. -/
def decoder (rexp : ℚ → ℚ) (m : BuiltModels) (v : List ℚ) : List ℚ :=
  decoder_model rexp m.decoderParams v

/-- `encoder = Model(rnaseq_input, z_mean_encoded)` followed by
`encoder.predict_on_batch(rnaseq)` (lines 276-278): every row of the original
matrix pushed through the mean branch only. -/
def encoder_predict (p : EncoderParams) (rnaseq : List (α × List ℚ)) :
    List (α × List ℚ) :=
  rnaseq.map (fun r => (r.1, z_mean_encoded p r.2))

/-- A pandas DataFrame as the exporter shapes it: labelled rows, numeric
column labels, and the name of the column axis. -/
structure EncodedDf (α : Type) where
  rows : List (α × List ℚ)
  colLabels : List ℕ
  colAxisName : String

/-- Lines 279-282: wrap the prediction in a DataFrame indexed by
`rnaseq.index` (the columns are `0..w-1` where `w` is the width of the
predicted array), set the column-axis name to `sample_id`, then shift the
column labels by `+ 1` (index arithmetic keeps the axis name). -/
def mkEncodedDf (pred : List (α × List ℚ)) : EncodedDf α :=
  { rows := pred
    colLabels := (List.range ((pred.head?.map (fun r => r.2.length)).getD 0)).map
      (fun i => i + 1)
    colAxisName := "sample_id" }

/-- `encoded_rnaseq_df` as written at line 310 (`to_csv`). -/
def encoded_rnaseq_df (p : EncoderParams) (rnaseq : List (α × List ℚ)) :
    EncodedDf α :=
  mkEncodedDf (encoder_predict p rnaseq)

/-! ## Pipeline ordering (lines 75-76 and 293-329) -/

/-- The file-writing effects the script performs, in program order. -/
inductive WriteEvent
  | savefig : String → WriteEvent
  | to_csv : String → WriteEvent
  | saveModel : String → WriteEvent
  | save_weights : String → WriteEvent
deriving DecidableEq

/-- `hist_plot_file` (line 98). -/
def hist_plot_file (hp : HyperParams) : String :=
  hp.base_dir ++ "/stats/" ++ hp.analysis_name ++ "/tybalt_2layer_"
    ++ toString hp.latent_dim ++ "latent_hist.png"

/-- `stat_file` (line 97). -/
def stat_file (hp : HyperParams) : String :=
  hp.base_dir ++ "/stats/" ++ hp.analysis_name ++ "/tybalt_2layer_"
    ++ toString hp.latent_dim ++ "latent_stats.tsv"

/-- `encoded_file` (lines 100-101). -/
def encoded_file (hp : HyperParams) : String :=
  hp.base_dir ++ "/encoded/" ++ hp.analysis_name ++ "/train_input_2layer_"
    ++ toString hp.latent_dim ++ "latent_encoded.txt"

/-- `model_encoder_file` (lines 103-104). -/
def model_encoder_file (hp : HyperParams) : String :=
  hp.base_dir ++ "/models/" ++ hp.analysis_name ++ "/tybalt_2layer_"
    ++ toString hp.latent_dim ++ "latent_encoder_model.h5"

/-- `weights_encoder_file` (lines 105-106). -/
def weights_encoder_file (hp : HyperParams) : String :=
  hp.base_dir ++ "/models/" ++ hp.analysis_name ++ "/tybalt_2layer_"
    ++ toString hp.latent_dim ++ "latent_encoder_weights.h5"

/-- `model_decoder_file` (lines 107-108). -/
def model_decoder_file (hp : HyperParams) : String :=
  hp.base_dir ++ "/models/" ++ hp.analysis_name ++ "/tybalt_2layer_"
    ++ toString hp.latent_dim ++ "latent_decoder_model.h5"

/-- `weights_decoder_file` (lines 109-110). -/
def weights_decoder_file (hp : HyperParams) : String :=
  hp.base_dir ++ "/models/" ++ hp.analysis_name ++ "/tybalt_2layer_"
    ++ toString hp.latent_dim ++ "latent_decoder_weights.h5"

/-- The writes of lines 293-329 in program order: history plot (`savefig`,
line 293), stats table (line 307), encoded table (line 310), encoder model
and weights (lines 315, 318), decoder model and weights (lines 326, 329). -/
def outputWrites (hp : HyperParams) : List WriteEvent :=
  [WriteEvent.savefig (hist_plot_file hp),
   WriteEvent.to_csv (stat_file hp),
   WriteEvent.to_csv (encoded_file hp),
   WriteEvent.saveModel (model_encoder_file hp),
   WriteEvent.save_weights (weights_encoder_file hp),
   WriteEvent.saveModel (model_decoder_file hp),
   WriteEvent.save_weights (weights_decoder_file hp)]

/-- `tybalt_2layer_model` as an effect trace.  `readResult` is the outcome of
`pd.read_table(data_file, ...)` at line 76, the first statement of the body
after path construction: a Python exception there propagates out of the
function, and every write listed in `outputWrites` appears strictly after the
read, so in the error case the write trace is empty. -/
def tybalt_2layer_model (hp : HyperParams)
    (readResult : Except String (List (String × List ℚ))) :
    Except String Unit × List WriteEvent :=
  match readResult with
  | Except.error e => (Except.error e, [])
  | Except.ok _ => (Except.ok (), outputWrites hp)

/-! ## Theorems -/

/-- Claim C3: the warm-up state starts at 0; each epoch-end transition adds
`kappa` when the state is `≤ 1` and otherwise leaves it alone; hence for
`kappa > 0`, after `n` transitions the state is `n * kappa` whenever
`(n - 1) * kappa ≤ 1`, and the state never exceeds `1 + kappa` (it may
overshoot 1 by at most one `kappa` step, and is never clamped to exactly 1). -/
theorem warmup_schedule_correct (kappa : ℚ) (hk : 0 < kappa) :
    getValue (betaAfterEpochs kappa 0) = 0 ∧
    (∀ n : ℕ, ((n : ℚ) - 1) * kappa ≤ 1 →
      getValue (betaAfterEpochs kappa n) = n * kappa) ∧
    (∀ n : ℕ, getValue (betaAfterEpochs kappa n) ≤ 1 + kappa) := by
  refine ⟨rfl, ?_, ?_⟩
  · intro n
    induction n with
    | zero => intro _; simp [betaAfterEpochs, initialBeta, getValue]
    | succ n ih =>
      intro h
      have hcast : ((n + 1 : ℕ) : ℚ) - 1 = (n : ℚ) := by push_cast; ring
      rw [hcast] at h
      have hprev : getValue (betaAfterEpochs kappa n) = n * kappa := by
        apply ih
        have hexp : ((n : ℚ) - 1) * kappa = (n : ℚ) * kappa - kappa := by ring
        rw [hexp]
        linarith
      show getValue (on_epoch_end kappa (betaAfterEpochs kappa n)) = _
      rw [on_epoch_end, hprev, if_pos h]
      show (n : ℚ) * kappa + kappa = _
      push_cast
      ring
  · intro n
    induction n with
    | zero =>
      show (0 : ℚ) ≤ 1 + kappa
      linarith
    | succ n ih =>
      show getValue (on_epoch_end kappa (betaAfterEpochs kappa n)) ≤ 1 + kappa
      rw [on_epoch_end]
      split_ifs with h
      · show getValue (betaAfterEpochs kappa n) + kappa ≤ 1 + kappa
        linarith
      · exact ih

/-- Witness for C3 at `kappa = 1/2`, `n = 3`. -/
theorem warmup_schedule_correct_witness :
    getValue (betaAfterEpochs (1/2) 3) = (3 : ℕ) * (1/2 : ℚ) :=
  (warmup_schedule_correct (1/2) (by norm_num)).2.1 3 (by norm_num)

/-- Claim C2: the KL coefficient compiled into the training loss is the
number read from the beta cell when `vae_loss` is traced at model
construction (the initial value 0), and the compiled loss is therefore
insensitive to the cell's contents during training: evaluating it under any
two beta-cell states — in particular the states after any two numbers of
warm-up transitions — gives the same value on the same batch. -/
theorem compiled_loss_ignores_beta_updates (rexp rlog : ℚ → ℚ)
    (original_dim : ℕ) (c1 c2 : BetaCell) (kappa : ℚ) (n1 n2 : ℕ) (b : Batch) :
    compiledKlCoeff = 0 ∧
    trainingLossEval rexp rlog original_dim c1 b
      = trainingLossEval rexp rlog original_dim c2 b ∧
    trainingLossEval rexp rlog original_dim (betaAfterEpochs kappa n1) b
      = trainingLossEval rexp rlog original_dim (betaAfterEpochs kappa n2) b :=
  ⟨rfl, rfl, rfl⟩

/-- Claim C1 (failing input): run one epoch with `kappa = 1/2`, so the warm-up
cell holds `1/2`; on the one-sample batch with `x = x_decoded = [1/2]`,
`z_mean = [0]`, `z_log_var = [0]` (backend `exp` and `log` instantiated as the
identity), the loss the code computes is still the one with KL weight 0,
namely `-1/2`, while the loss the claim describes — KL weighted by the
cell's current value — is `-3/4`. -/
theorem frozen_beta_failing_input :
    getValue (betaAfterEpochs (1/2) 1) = 1/2 ∧
    trainingLossEval id id 1 (betaAfterEpochs (1/2) 1)
      (Batch.mk [[1/2]] [[1/2]] [[0]] [[0]]) = -(1/2) ∧
    spec_loss id id 1 (betaAfterEpochs (1/2) 1)
      (Batch.mk [[1/2]] [[1/2]] [[0]] [[0]]) = -(3/4) := by
  refine ⟨by norm_num [betaAfterEpochs, on_epoch_end, initialBeta, getValue, setValue], ?_, ?_⟩
  · norm_num [trainingLossEval, vae_loss_with_coeff, compiledKlCoeff, initialBeta,
      getValue, binary_crossentropy, kl_loss_row, kmean]
  · norm_num [spec_loss, vae_loss_with_coeff, betaAfterEpochs, on_epoch_end,
      initialBeta, getValue, setValue, binary_crossentropy, kl_loss_row, kmean]

/-- Claim C7: the standalone decoder assembled for export applies the very
same `decoder_model` instance as the in-training path, so on every latent
vector the two agree, and that shared decoder is exactly
Dense(intermediate_dim, ReLU) followed by Dense(original_dim, sigmoid). -/
theorem decoder_shared_instance (rexp : ℚ → ℚ) (m : BuiltModels) (v : List ℚ) :
    decoder rexp m v = rnaseq_reconstruct rexp m v ∧
    decoder rexp m v
      = (denseApply m.decoderParams.dense2
          (reluV (denseApply m.decoderParams.dense1 v))).map (sigmoid rexp) :=
  ⟨rfl, rfl⟩

/-- Claim C9: if reading the input expression file fails, the pipeline
propagates that error and performs none of its writes (the write trace is
empty); on a successful read the writes are exactly the output files, all
after the read. -/
theorem read_error_propagates (hp : HyperParams) (e : String)
    (input : List (String × List ℚ)) :
    tybalt_2layer_model hp (Except.error e) = (Except.error e, []) ∧
    (tybalt_2layer_model hp (Except.ok input)).2 = outputWrites hp :=
  ⟨rfl, rfl⟩

/-- Claim C10: the split fraction and seed are the fixed module constants
`0.1` and `123`, not parameters of `tybalt_2layer_model`, and the train/test
split is identical under any two hyperparameter assignments. -/
theorem split_ignores_hyperparams {α : Type} [DecidableEq α]
    (choice : ℕ → ℕ → ℕ → List ℕ) (hp1 hp2 : HyperParams) (df : List α) :
    test_set_percent = 1/10 ∧
    randomState = 123 ∧
    tybalt_split choice hp1 df = tybalt_split choice hp2 df :=
  ⟨rfl, rfl, rfl⟩

/-- Pointwise evaluation of the sampler, by simultaneous induction on the
three tensors. -/
theorem sampling_getD (rexp : ℚ → ℚ) :
    ∀ (zm zlv eps : List ℚ) (i : ℕ), i < zm.length → i < zlv.length →
      i < eps.length →
      (sampling rexp zm zlv eps).getD i 0
        = zm.getD i 0 + rexp (zlv.getD i 0 / 2) * eps.getD i 0 := by
  intro zm
  induction zm with
  | nil => intro zlv eps i hi; simp at hi
  | cons m zm ih =>
    intro zlv eps i h1 h2 h3
    cases zlv with
    | nil => simp at h2
    | cons v zlv =>
      cases eps with
      | nil => simp at h3
      | cons e eps =>
        cases i with
        | zero => simp [sampling]
        | succ i =>
          simp only [sampling, List.zip_cons_cons, List.zipWith_cons_cons,
            List.getD_cons_succ]
          exact ih zlv eps i (by simpa using h1) (by simpa using h2)
            (by simpa using h3)

/-- Claim C5: on a latent pair and a noise tensor of the shape of `z_mean`,
the sampler returns a tensor of that same shape whose every entry is
`z_mean + exp(z_log_var / 2) * epsilon`; the draw is an explicit per-call
input, so the sampler carries no state between calls. -/
theorem sampling_correct (rexp : ℚ → ℚ) (zm zlv eps : List ℚ)
    (h1 : zlv.length = zm.length) (h2 : eps.length = zm.length) :
    (sampling rexp zm zlv eps).length = zm.length ∧
    ∀ i, i < zm.length →
      (sampling rexp zm zlv eps).getD i 0
        = zm.getD i 0 + rexp (zlv.getD i 0 / 2) * eps.getD i 0 := by
  constructor
  · simp [sampling, h1, h2]
  · intro i hi
    exact sampling_getD rexp zm zlv eps i hi (h1 ▸ hi) (h2 ▸ hi)

/-- Witness for C5 on `z_mean = [3, 5]`, `z_log_var = [2, 0]`,
`epsilon = [7, 11]`. -/
theorem sampling_correct_witness :
    (sampling id [3, 5] [2, 0] [7, 11]).getD 0 0
      = ([3, 5] : List ℚ).getD 0 0
        + id (([2, 0] : List ℚ).getD 0 0 / 2) * ([7, 11] : List ℚ).getD 0 0 :=
  (sampling_correct id [3, 5] [2, 0] [7, 11] (by decide) (by decide)).2 0
    (by decide)

/-- Claim C6: `z_mean` is ReLU ∘ BatchNorm ∘ Dense applied to the hidden
representation ReLU ∘ BatchNorm ∘ Dense of the input, while `z_log_var` is
ReLU ∘ BatchNorm ∘ Dense applied to the raw input — so any two parameter
states agreeing on the log-variance stack alone (whatever their hidden
stacks) give the same `z_log_var` — and every encoder `Dense` layer is
constructed with glorot-uniform initialization. -/
theorem encoder_structure_correct (p q : EncoderParams) (x : List ℚ)
    (hd : q.z_log_var_dense = p.z_log_var_dense)
    (hb : q.z_log_var_bn = p.z_log_var_bn) :
    z_mean_encoded p x
      = reluV (bnApply p.z_mean_bn (denseApply p.z_mean_dense
          (reluV (bnApply p.hidden_bn (denseApply p.hidden_dense x))))) ∧
    z_log_var_encoded p x
      = reluV (bnApply p.z_log_var_bn (denseApply p.z_log_var_dense x)) ∧
    z_log_var_encoded q x = z_log_var_encoded p x ∧
    ∀ hw hbias hbn mw mb mbn vw vb vbn,
      (mkEncoderParams hw hbias hbn mw mb mbn vw vb vbn).hidden_dense.kernel_initializer
          = "glorot_uniform" ∧
      (mkEncoderParams hw hbias hbn mw mb mbn vw vb vbn).z_mean_dense.kernel_initializer
          = "glorot_uniform" ∧
      (mkEncoderParams hw hbias hbn mw mb mbn vw vb vbn).z_log_var_dense.kernel_initializer
          = "glorot_uniform" := by
  refine ⟨rfl, rfl, ?_, ?_⟩
  · rw [z_log_var_encoded, z_log_var_encoded, hd, hb]
  · intro hw hbias hbn mw mb mbn vw vb vbn
    exact ⟨rfl, rfl, rfl⟩

/-- The mean branch always emits `latent_dim` activations when its Dense and
BatchNormalization layers have `latent_dim` units. -/
theorem z_mean_encoded_length (p : EncoderParams) (x : List ℚ) (n : ℕ)
    (hW : p.z_mean_dense.weights.length = n)
    (hB : p.z_mean_dense.bias.length = n)
    (hBN : p.z_mean_bn.length = n) :
    (z_mean_encoded p x).length = n := by
  simp [z_mean_encoded, reluV, bnApply, denseApply, hW, hB, hBN]

/-- Selecting rows of `df` at `l`-many in-bounds positions returns
`l.length` rows. -/
theorem filterMap_getElem_length {α : Type} (df : List α) (l : List ℕ)
    (h : ∀ i ∈ l, i < df.length) :
    (l.filterMap (fun i => df[i]?)).length = l.length := by
  induction l with
  | nil => rfl
  | cons i l ih =>
    have hi : i < df.length := h i (List.mem_cons_self i l)
    rw [List.filterMap_cons_some (List.getElem?_eq_getElem hi),
      List.length_cons, List.length_cons,
      ih (fun j hj => h j (List.mem_cons_of_mem i hj))]

/-- Every row selected from `df` by position is a row of `df`. -/
theorem mem_of_mem_filterMap_getElem {α : Type} (df : List α) (l : List ℕ)
    (x : α) (hx : x ∈ l.filterMap (fun i => df[i]?)) : x ∈ df := by
  rw [List.mem_filterMap] at hx
  obtain ⟨i, _, hi⟩ := hx
  exact List.getElem?_mem hi

/-- Selecting rows of a duplicate-free `df` at distinct in-bounds positions
yields a duplicate-free row list. -/
theorem filterMap_getElem_nodup {α : Type} (df : List α) (hdf : df.Nodup)
    (l : List ℕ) (hl : l.Nodup) (hb : ∀ i ∈ l, i < df.length) :
    (l.filterMap (fun i => df[i]?)).Nodup := by
  induction l with
  | nil => exact List.nodup_nil
  | cons i l ih =>
    have hi : i < df.length := hb i (List.mem_cons_self i l)
    rw [List.filterMap_cons_some (List.getElem?_eq_getElem hi)]
    refine List.Nodup.cons ?_
      (ih (List.Nodup.of_cons hl) (fun j hj => hb j (List.mem_cons_of_mem i hj)))
    intro hmem
    rw [List.mem_filterMap] at hmem
    obtain ⟨j, hj, hji⟩ := hmem
    have hij : i = j := by
      refine List.getElem?_inj hi hdf ?_
      rw [List.getElem?_eq_getElem hi, hji]
    exact (List.nodup_cons.mp hl).1 (hij ▸ hj)

/-- Witness for C6: two parameter states with different hidden stacks but the
same log-variance stack yield the same `z_log_var` on the input `[3]`. -/
theorem encoder_structure_correct_witness :
    z_log_var_encoded
        (mkEncoderParams [[5]] [1] [fun v => v + 1] [[4]] [0] [fun v => v]
          [[2]] [1] [fun v => v])
        [3]
      = z_log_var_encoded
          (mkEncoderParams [[1]] [0] [fun v => v] [[1]] [0] [fun v => v]
            [[2]] [1] [fun v => v])
          [3] :=
  (encoder_structure_correct
      (mkEncoderParams [[1]] [0] [fun v => v] [[1]] [0] [fun v => v]
        [[2]] [1] [fun v => v])
      (mkEncoderParams [[5]] [1] [fun v => v + 1] [[4]] [0] [fun v => v]
        [[2]] [1] [fun v => v])
      [3] rfl rfl).2.2.1

/-- Claim C8: the exported embedding table has one row per row of the
original matrix (train and test alike), in order and under the original
sample identifiers, each row computed through the mean branch only (so the
table is unchanged by any modification of the log-variance stack), with
exactly `latent_dim` values per row, column labels `1..latent_dim`, and
column-axis name `sample_id`. -/
theorem encoded_table_correct {α : Type} (p : EncoderParams) (latent_dim : ℕ)
    (rnaseq : List (α × List ℚ))
    (hW : p.z_mean_dense.weights.length = latent_dim)
    (hB : p.z_mean_dense.bias.length = latent_dim)
    (hBN : p.z_mean_bn.length = latent_dim)
    (hne : rnaseq ≠ []) :
    (encoded_rnaseq_df p rnaseq).rows.map Prod.fst = rnaseq.map Prod.fst ∧
    (encoded_rnaseq_df p rnaseq).rows.length = rnaseq.length ∧
    (encoded_rnaseq_df p rnaseq).rows
      = rnaseq.map (fun r => (r.1, z_mean_encoded p r.2)) ∧
    (∀ r ∈ (encoded_rnaseq_df p rnaseq).rows, r.2.length = latent_dim) ∧
    (encoded_rnaseq_df p rnaseq).colLabels
      = (List.range latent_dim).map (fun i => i + 1) ∧
    (encoded_rnaseq_df p rnaseq).colAxisName = "sample_id" ∧
    (∀ q : EncoderParams, q.hidden_dense = p.hidden_dense →
      q.hidden_bn = p.hidden_bn → q.z_mean_dense = p.z_mean_dense →
      q.z_mean_bn = p.z_mean_bn →
      encoded_rnaseq_df q rnaseq = encoded_rnaseq_df p rnaseq) := by
  refine ⟨?_, ?_, rfl, ?_, ?_, rfl, ?_⟩
  · simp [encoded_rnaseq_df, mkEncodedDf, encoder_predict]
  · simp [encoded_rnaseq_df, mkEncodedDf, encoder_predict]
  · intro r hr
    have hrows : (encoded_rnaseq_df p rnaseq).rows
        = rnaseq.map (fun s => (s.1, z_mean_encoded p s.2)) := rfl
    rw [hrows, List.mem_map] at hr
    obtain ⟨a, _, rfl⟩ := hr
    exact z_mean_encoded_length p a.2 latent_dim hW hB hBN
  · cases rnaseq with
    | nil => exact absurd rfl hne
    | cons a t =>
      have hlen : (z_mean_encoded p a.2).length = latent_dim :=
        z_mean_encoded_length p a.2 latent_dim hW hB hBN
      simp [encoded_rnaseq_df, mkEncodedDf, encoder_predict, hlen]
  · intro q h1 h2 h3 h4
    simp [encoded_rnaseq_df, mkEncodedDf, encoder_predict, z_mean_encoded,
      hidden_encoded, h1, h2, h3, h4]

/-- Witness for C8 on a one-sample, one-gene, one-latent-dimension state. -/
theorem encoded_table_correct_witness :
    (encoded_rnaseq_df
        (mkEncoderParams [[1]] [0] [fun v => v] [[1]] [0] [fun v => v]
          [[1]] [0] [fun v => v])
        [("s1", [1/2])]).colLabels
      = (List.range 1).map (fun i => i + 1) :=
  (encoded_table_correct
      (mkEncoderParams [[1]] [0] [fun v => v] [[1]] [0] [fun v => v]
        [[1]] [0] [fun v => v])
      1 [("s1", [1/2])] rfl rfl rfl (by decide)).2.2.2.2.1

/-- Claim C4: with the seeded generator abstracted by its contract — it
returns, deterministically in the seed, `round(0.1 * N)` distinct in-bounds
row positions — the splitter on a matrix of `N` uniquely-identified rows
produces a test subset of exactly `round(0.1 * N)` rows and a train subset of
the remaining `N - round(0.1 * N)` rows; the subsets are disjoint, together
they cover all rows, and equal inputs give identical (equal as ordered lists)
splits. -/
theorem data_splitter_correct {α : Type} [DecidableEq α]
    (choice : ℕ → ℕ → ℕ → List ℕ) (df : List α) (hdf : df.Nodup)
    (hlen : (choice randomState df.length
        (pyRound (test_set_percent * df.length)).toNat).length
        = (pyRound (test_set_percent * df.length)).toNat)
    (hnodup : (choice randomState df.length
        (pyRound (test_set_percent * df.length)).toNat).Nodup)
    (hbound : ∀ i ∈ choice randomState df.length
        (pyRound (test_set_percent * df.length)).toNat, i < df.length) :
    (rnaseq_test_df choice df).length = (pyRound ((1/10) * df.length)).toNat ∧
    (rnaseq_train_df choice df).length
      = df.length - (pyRound ((1/10) * df.length)).toNat ∧
    (∀ x ∈ rnaseq_test_df choice df, x ∈ df) ∧
    (∀ x ∈ rnaseq_train_df choice df, x ∈ df) ∧
    (∀ x ∈ rnaseq_test_df choice df, x ∉ rnaseq_train_df choice df) ∧
    (∀ x ∈ df, x ∈ rnaseq_test_df choice df ∨ x ∈ rnaseq_train_df choice df) ∧
    (∀ df2 : List α, df2 = df →
      rnaseq_test_df choice df2 = rnaseq_test_df choice df ∧
      rnaseq_train_df choice df2 = rnaseq_train_df choice df) := by
  have htest_def : rnaseq_test_df choice df
      = (choice randomState df.length
          (pyRound (test_set_percent * df.length)).toNat).filterMap
          (fun i => df[i]?) := rfl
  have htlen : (rnaseq_test_df choice df).length
      = (pyRound (test_set_percent * df.length)).toNat := by
    rw [htest_def, filterMap_getElem_length df _ hbound, hlen]
  have htsub : ∀ x ∈ rnaseq_test_df choice df, x ∈ df := by
    intro x hx
    exact mem_of_mem_filterMap_getElem df _ x (htest_def ▸ hx)
  have htnodup : (rnaseq_test_df choice df).Nodup := by
    rw [htest_def]
    exact filterMap_getElem_nodup df hdf _ hnodup hbound
  have htrain_def : rnaseq_train_df choice df
      = df.filter (fun r => decide (r ∉ rnaseq_test_df choice df)) := rfl
  have htrsub : ∀ x ∈ rnaseq_train_df choice df, x ∈ df := by
    intro x hx
    exact (List.mem_filter.mp (htrain_def ▸ hx)).1
  have hdisj : ∀ x ∈ rnaseq_test_df choice df, x ∉ rnaseq_train_df choice df := by
    intro x hx hmem
    rw [htrain_def, List.mem_filter] at hmem
    rw [decide_eq_true_eq] at hmem
    exact hmem.2 hx
  have hperm : List.Perm
      (df.filter (fun x => decide (x ∈ rnaseq_test_df choice df)))
      (rnaseq_test_df choice df) := by
    rw [List.perm_ext_iff_of_nodup (List.Nodup.filter _ hdf) htnodup]
    intro a
    simp only [List.mem_filter, decide_eq_true_eq]
    exact ⟨fun h => h.2, fun h => ⟨htsub a h, h⟩⟩
  have hfun : (fun x => ! decide (x ∈ rnaseq_test_df choice df))
      = (fun r => decide (r ∉ rnaseq_test_df choice df)) := by
    funext x
    simp [decide_not]
  have hsplit := List.length_eq_length_filter_add
    (l := df) (fun x => decide (x ∈ rnaseq_test_df choice df))
  rw [hperm.length_eq, htlen] at hsplit
  have htrlen : (rnaseq_train_df choice df).length
      = df.length - (pyRound (test_set_percent * df.length)).toNat := by
    rw [htrain_def, ← hfun]
    omega
  refine ⟨htlen, htrlen, htsub, htrsub, hdisj, ?_, ?_⟩
  · intro x hx
    by_cases h : x ∈ rnaseq_test_df choice df
    · exact Or.inl h
    · refine Or.inr ?_
      rw [htrain_def, List.mem_filter]
      exact ⟨hx, by simpa using h⟩
  · intro df2 h
    exact ⟨by rw [h], by rw [h]⟩

/-- Witness for C4: ten distinct rows, with the position generator
instantiated as the one picking the first `k` positions. -/
theorem data_splitter_correct_witness :
    (rnaseq_test_df (fun _ _ k => List.range k)
        [0, 1, 2, 3, 4, 5, 6, 7, 8, 9]).length
      = (pyRound ((1/10) * (([0, 1, 2, 3, 4, 5, 6, 7, 8, 9] : List ℕ).length : ℚ))).toNat :=
  (data_splitter_correct (fun _ _ k => List.range k)
      [0, 1, 2, 3, 4, 5, 6, 7, 8, 9]
      (by decide) (by simp) (by exact List.nodup_range _)
      (by norm_num [pyRound, test_set_percent, List.mem_range])).1

end VaeScript
